import Mathlib

/-!
Shallow embedding of the safe-mutation framework of the ocfs2 tunefs utility
(`tunefs.ocfs2/libtunefs.c` plus the inline-data feature body), together with
proofs about its consistency validator, access coordinator, handle registry
and operation runner.

Modelling conventions:
* C machine integers become `Nat` with an explicit `% 2 ^ w` at the points
  where the C code can actually truncate (the `uint32_t` chain accumulators
  and the `uint16_t` recomputed free-bit count).
* The external structural-I/O provider (block reads, system-inode lookup) is
  an input of each function: a device is a map from block numbers to decoded
  structures.  A failing read is `none`.  Scratch-buffer allocation
  (`ocfs2_malloc_block`) is modelled as always succeeding; on failure the C
  functions return immediately without touching anything, which the claims
  never exercise.
* Process-global mutable state (`local_fd`, `local_fd_count`, `online_fd`,
  `online_fd_count`, `cluster_locked`, `journal_clusters`, the handle list
  `fs_list` and the `_TUNEFS_OCFS2_LOCK` environment variable) is gathered in
  an explicit record `TState` threaded through the stateful functions.
* `setenv`/`unsetenv` (wrapped by `tunefs_set_lock_env`) are modelled as
  always succeeding, so the `set_lock_env` failure branch of
  `tunefs_lock_cluster` (lines 657-664) is dead in the model.
* Functions record the device operations they issue in a `List DiskOp` trace,
  which is how read-only-ness is stated.
-/

/-- Error codes used by the embedded functions.  `errcode_t` values are
modelled as `Option Err` with `none` standing for `0` (success). -/
inductive Err where
  | DEVICE_BUSY
  | PERFORM_ONLINE
  | INVALID_STACK_NAME
  | INTERNAL_FAILURE
  | JOURNAL_DIRTY
  | NOT_MOUNTED
  | ONLINE_FAILED
  | NAMED_DEVICE_NOT_FOUND
  | IO_ERROR
  | CORRUPT_CHAIN
  | O2CB_INVALID_STACK_NAME
  | TRYLOCK_FAILED
  | NO_SPACE
  | providerErr (n : Nat)
  deriving DecidableEq

/-- A device operation issued by one of the embedded functions.  The checks
only ever issue reads; write operations exist in the type so that
read-only-ness is a statement, not a tautology of the trace type. -/
inductive DiskOp where
  | readInode (blkno : Nat)
  | readGroup (blkno : Nat)
  | writeSuper
  deriving DecidableEq

/-- Whether a device operation mutates the device. -/
def DiskOp.isWrite : DiskOp → Bool
  | .readInode _ => false
  | .readGroup _ => false
  | .writeSuper => true

/-- The process-global mutable state of libtunefs.c (the file-scope statics
at lines 55-68 plus the `_TUNEFS_OCFS2_LOCK` environment variable). -/
structure TState where
  /-- `local_fd`: descriptor of the `O_RDWR|O_EXCL` open, `-1` when closed. -/
  local_fd : Int := -1
  /-- `local_fd_count`: reference count for `local_fd`. -/
  local_fd_count : Nat := 0
  /-- `online_fd`: descriptor on the mount directory, `-1` when closed. -/
  online_fd : Int := -1
  /-- `online_fd_count`: reference count for `online_fd`. -/
  online_fd_count : Nat := 0
  /-- `cluster_locked`: whether this process holds the cluster lock. -/
  cluster_locked : Bool := false
  /-- `journal_clusters`: largest journal extent seen by the journal check. -/
  journal_clusters : Nat := 0
  /-- contents of the `_TUNEFS_OCFS2_LOCK` environment variable. -/
  lockEnv : Option String := none
  /-- `fs_list`: identities of the registered open handles, most recent first. -/
  registry : List Nat := []
  deriving DecidableEq

/-! ### Consistency Validator: chain-allocator bit accounting

Embedding of `tunefs_count_free_bits`, `tunefs_validate_chain_group` and
`tunefs_global_bitmap_check` (libtunefs.c lines 670-870). -/

/-- An on-disk chain-group descriptor (`struct ocfs2_group_desc`), with just
the fields the validator reads.  The bitmap is the predicate "bit `i` is
set". -/
structure GroupDesc where
  bg_bits : Nat
  bg_free_bits_count : Nat
  bg_size : Nat
  bg_chain : Nat
  bg_parent_dinode : Nat
  bg_next_group : Nat
  bg_bitmap : Nat → Bool

/-- One chain record (`struct ocfs2_chain_rec`) of an allocator inode. -/
structure ChainRec where
  c_blkno : Nat
  c_total : Nat
  c_free : Nat
  deriving DecidableEq

/-- The chain-allocator inode (`struct ocfs2_dinode` restricted to the
fields the validator reads from `id2.i_chain`). -/
structure ChainDinode where
  i_blkno : Nat
  cl_next_free_rec : Nat
  cl_recs : List ChainRec

/-- `ocfs2_find_next_bit_set`/`clear`: first index in `[off, maxb)` where
`p` holds, or `maxb` if there is none.  The C routines scan a word at a
time; the scan is a count-down recursion on the number of remaining
positions (`maxb - off` at the outer entry). -/
def findNextBitGo (p : Nat → Bool) (maxb : Nat) : Nat → Nat → Nat
  | 0, _ => maxb
  | left + 1, off =>
    if off < maxb then
      if p off then off else findNextBitGo p maxb left (off + 1)
    else maxb

/-- First index at or after `off` (below `maxb`) whose bit satisfies `p`. -/
def findNextBit (p : Nat → Bool) (maxb off : Nat) : Nat :=
  findNextBitGo p maxb (maxb - off) off

/-- Loop body of `tunefs_count_free_bits`: sum the lengths of the maximal
runs of clear bits.  Each iteration strictly increases `e`, so
`gd.bg_bits + 1` iterations always suffice; the count-down argument makes
that explicit. -/
def countFreeBitsGo (bmap : Nat → Bool) (nbits : Nat) : Nat → Nat → Nat → Nat
  | 0, _, acc => acc
  | left + 1, e, acc =>
    if e < nbits then
      let start := findNextBit (fun i => ! bmap i) nbits e
      if nbits ≤ start then acc
      else
        let e2 := findNextBit (fun i => bmap i) nbits start
        countFreeBitsGo bmap nbits left e2 (acc + (e2 - start))
    else acc

/-- `tunefs_count_free_bits` (lines 670-685): recompute a group's free-bit
count by scanning its bitmap for runs of clear bits. -/
def tunefs_count_free_bits (gd : GroupDesc) : Nat :=
  countFreeBitsGo gd.bg_bitmap gd.bg_bits (gd.bg_bits + 1) 0 0

/-- The corruption outcomes of the chain validator.  The C code returns
`OCFS2_ET_CORRUPT_CHAIN` for each of them and names the offending blocks in
the accompanying `verbosef` message; the constructors carry exactly the
block numbers that message reports.  `readFail` stands for a failing
`ocfs2_read_group_desc`, `noFuel` for a walk that exceeds the iteration
budget (the C loop would still be running). -/
inductive ChainErr where
  | readFail (blkno : Nat)
  | badParent (alloc blkno : Nat)
  | badChainIdx (alloc blkno : Nat)
  | badFreeCount (alloc blkno : Nat)
  | badCapacity (alloc blkno : Nat)
  | freeGeBits (alloc blkno : Nat)
  | totalMismatch (alloc : Nat)
  | freeMismatch (alloc : Nat)
  | noFuel
  deriving DecidableEq

/-- The `errcode_t` actually returned by the C function for each outcome. -/
def ChainErr.code : ChainErr → Err
  | .readFail _ => Err.IO_ERROR
  | .noFuel => Err.INTERNAL_FAILURE
  | _ => Err.CORRUPT_CHAIN

/-- Is this one of the structural-corruption outcomes (as opposed to a
failed read or an exhausted iteration budget)?  Every corruption
constructor carries the allocator block and, for the per-group checks, the
offending group-descriptor block. -/
def ChainErr.isCorruption : ChainErr → Bool
  | .readFail _ => false
  | .noFuel => false
  | _ => true

/-- The `while (blkno)` loop of `tunefs_validate_chain_group`
(lines 717-812), walking the linked list of group descriptors of one chain
and then checking the chain record's totals.  `total` and `free` are the
`uint32_t` accumulators, hence the `% 2 ^ 32`; the recomputed free-bit
count is truncated to the `uint16_t` local `bits`. -/
def validateLoop (read : Nat → Option GroupDesc) (diBlk chainIdx : Nat)
    (cr : ChainRec) : Nat → Nat → Nat → Nat → Except ChainErr Unit × List DiskOp
  | 0, _, _, _ => (Except.error ChainErr.noFuel, [])
  | fuel + 1, blkno, total, free =>
    if blkno = 0 then
      if cr.c_total ≠ total then (Except.error (ChainErr.totalMismatch diBlk), [])
      else if cr.c_free ≠ free then (Except.error (ChainErr.freeMismatch diBlk), [])
      else (Except.ok (), [])
    else
      match read blkno with
      | none => (Except.error (ChainErr.readFail blkno), [DiskOp.readGroup blkno])
      | some gd =>
        if gd.bg_parent_dinode ≠ diBlk then
          (Except.error (ChainErr.badParent diBlk blkno), [DiskOp.readGroup blkno])
        else if gd.bg_chain ≠ chainIdx then
          (Except.error (ChainErr.badChainIdx diBlk blkno), [DiskOp.readGroup blkno])
        else if tunefs_count_free_bits gd % 65536 ≠ gd.bg_free_bits_count then
          (Except.error (ChainErr.badFreeCount diBlk blkno), [DiskOp.readGroup blkno])
        else if gd.bg_size * 8 < gd.bg_bits then
          (Except.error (ChainErr.badCapacity diBlk blkno), [DiskOp.readGroup blkno])
        else if gd.bg_bits ≤ gd.bg_free_bits_count then
          (Except.error (ChainErr.freeGeBits diBlk blkno), [DiskOp.readGroup blkno])
        else
          let r := validateLoop read diBlk chainIdx cr fuel gd.bg_next_group
            ((total + gd.bg_bits) % 4294967296) ((free + gd.bg_free_bits_count) % 4294967296)
          (r.1, DiskOp.readGroup blkno :: r.2)

/-- `tunefs_validate_chain_group` (lines 687-819): validate chain number
`chain` of allocator inode `di` against the groups read from the device. -/
def tunefs_validate_chain_group (fuel : Nat) (read : Nat → Option GroupDesc)
    (di : ChainDinode) (chain : Nat) : Except ChainErr Unit × List DiskOp :=
  let cr := di.cl_recs.getD chain ⟨0, 0, 0⟩
  validateLoop read di.i_blkno chain cr fuel cr.c_blkno 0 0

/-- The filesystem view consumed by the global-bitmap check: the block the
global-bitmap system-inode lookup resolves to, the allocator inode read
from it, and the device's group descriptors.  Lookup and inode read are
modelled as succeeding; their failure branches just re-surface the provider
error without touching anything. -/
structure AllocFS where
  bm_blkno : Nat
  bitmapInode : ChainDinode
  groups : Nat → Option GroupDesc

/-- The `for (i = 0; i < cl->cl_next_free_rec; ++i)` loop of
`tunefs_global_bitmap_check`, with `k` chains left to validate starting at
index `i`. -/
def checkChainsGo (fuel : Nat) (read : Nat → Option GroupDesc) (di : ChainDinode) :
    Nat → Nat → Except ChainErr Unit × List DiskOp
  | 0, _ => (Except.ok (), [])
  | k + 1, i =>
    let r := tunefs_validate_chain_group fuel read di i
    match r.1 with
    | Except.error e => (Except.error e, r.2)
    | Except.ok () =>
      let r2 := checkChainsGo fuel read di k (i + 1)
      (r2.1, r.2 ++ r2.2)

/-- `tunefs_global_bitmap_check` (lines 821-870): look up and read the
global bitmap inode, then validate every chain record in it.  The function
reads no process-global state and writes none, which the identical output
state records. -/
def tunefs_global_bitmap_check (fuel : Nat) (fs : AllocFS) (s : TState) :
    (Except ChainErr Unit × List DiskOp) × TState :=
  let r := checkChainsGo fuel fs.groups fs.bitmapInode fs.bitmapInode.cl_next_free_rec 0
  ((r.1, DiskOp.readInode fs.bm_blkno :: r.2), s)

/-! ### The chain snapshot and the consistency invariant -/

/-- The chain of group descriptors reached from head block `b` by following
`bg_next_group` links: `ChainFrom read b l` says the walk visits exactly the
blocks of `l` (with the descriptor read at each) and terminates at a zero
link.  It is the "Chain Allocator Snapshot" of the spec. -/
inductive ChainFrom (read : Nat → Option GroupDesc) : Nat → List (Nat × GroupDesc) → Prop
  | nil : ChainFrom read 0 []
  | cons {b : Nat} {gd : GroupDesc} {l : List (Nat × GroupDesc)} :
      b ≠ 0 → read b = some gd → ChainFrom read gd.bg_next_group l →
      ChainFrom read b ((b, gd) :: l)

/-- The per-group invariant exactly as the code checks it: correct parent
back-link and chain index, stored free count equal to the recount from the
bitmap, declared bits within the byte capacity, and free-bit count
*strictly below* the total (the code rejects `bg_free_bits_count >=
bg_bits`). -/
def goodGroup (diBlk idx : Nat) (gd : GroupDesc) : Prop :=
  gd.bg_parent_dinode = diBlk ∧ gd.bg_chain = idx ∧
  tunefs_count_free_bits gd % 65536 = gd.bg_free_bits_count ∧
  gd.bg_bits ≤ gd.bg_size * 8 ∧
  gd.bg_free_bits_count < gd.bg_bits

instance (diBlk idx : Nat) (gd : GroupDesc) : Decidable (goodGroup diBlk idx gd) := by
  unfold goodGroup; infer_instance

/-- Total-bit accumulator over a chain, starting from `t` (a `uint32_t`). -/
def chainTotalFrom (t : Nat) (l : List (Nat × GroupDesc)) : Nat :=
  l.foldl (fun a p => (a + p.2.bg_bits) % 4294967296) t

/-- Free-bit accumulator over a chain, starting from `f` (a `uint32_t`). -/
def chainFreeFrom (f : Nat) (l : List (Nat × GroupDesc)) : Nat :=
  l.foldl (fun a p => (a + p.2.bg_free_bits_count) % 4294967296) f

/-- Full consistency of one chain, as enforced by the code: every group
satisfies `goodGroup` and the chain record's stated totals equal the
accumulated sums. -/
def chainConsistent (diBlk idx : Nat) (cr : ChainRec) (l : List (Nat × GroupDesc)) : Prop :=
  (∀ p ∈ l, goodGroup diBlk idx p.2) ∧
  cr.c_total = chainTotalFrom 0 l ∧ cr.c_free = chainFreeFrom 0 l

/-- Modelled from the spec: the per-group invariant as the claim words it,
with "the free-bit count does not exceed the total-bit count"
(`bg_free_bits_count ≤ bg_bits`) in place of the code's strict inequality,
and the free-bit recount stated without truncation. -/
def claimGoodGroup (diBlk idx : Nat) (gd : GroupDesc) : Prop :=
  gd.bg_parent_dinode = diBlk ∧ gd.bg_chain = idx ∧
  tunefs_count_free_bits gd = gd.bg_free_bits_count ∧
  gd.bg_bits ≤ gd.bg_size * 8 ∧
  gd.bg_free_bits_count ≤ gd.bg_bits

instance (diBlk idx : Nat) (gd : GroupDesc) : Decidable (claimGoodGroup diBlk idx gd) := by
  unfold claimGoodGroup; infer_instance

/-- Walks from the same head read the same chain. -/
theorem ChainFrom_unique {read : Nat → Option GroupDesc} :
    ∀ {b l₁ l₂}, ChainFrom read b l₁ → ChainFrom read b l₂ → l₁ = l₂ := by
  intro b l₁ l₂ h₁
  induction h₁ generalizing l₂ with
  | nil =>
    intro h₂
    cases h₂ with
    | nil => rfl
    | cons hb _ _ => exact absurd rfl hb
  | cons hb hread _ ih =>
    intro h₂
    cases h₂ with
    | nil => exact absurd rfl hb
    | cons hb₂ hread₂ htail₂ =>
      obtain rfl := Option.some.inj (hread.symm.trans hread₂)
      rw [ih htail₂]

theorem chainTotalFrom_cons (t : Nat) (p : Nat × GroupDesc) (l : List (Nat × GroupDesc)) :
    chainTotalFrom t (p :: l) = chainTotalFrom ((t + p.2.bg_bits) % 4294967296) l := rfl

theorem chainFreeFrom_cons (f : Nat) (p : Nat × GroupDesc) (l : List (Nat × GroupDesc)) :
    chainFreeFrom f (p :: l) = chainFreeFrom ((f + p.2.bg_free_bits_count) % 4294967296) l := rfl

/-- Core loop lemma: on a chain described by `ChainFrom`, with enough fuel,
the validator succeeds exactly on consistent chains, and every failure is a
structural-corruption outcome naming its block. -/
theorem validateLoop_spec (read : Nat → Option GroupDesc) (diBlk idx : Nat) (cr : ChainRec) :
    ∀ {b l}, ChainFrom read b l → ∀ fuel t f, l.length < fuel →
      (((validateLoop read diBlk idx cr fuel b t f).1 = Except.ok ()) ↔
        ((∀ p ∈ l, goodGroup diBlk idx p.2) ∧ cr.c_total = chainTotalFrom t l ∧
          cr.c_free = chainFreeFrom f l)) ∧
      (∀ e, (validateLoop read diBlk idx cr fuel b t f).1 = Except.error e →
        e.isCorruption = true) := by
  intro b l h
  induction h with
  | nil =>
    intro fuel t f hf
    obtain ⟨fu, rfl⟩ : ∃ fu, fuel = fu + 1 := ⟨fuel - 1, by omega⟩
    by_cases h1 : cr.c_total = t
    · by_cases h2 : cr.c_free = f
      · constructor
        · simp [validateLoop, h1, h2, chainTotalFrom, chainFreeFrom]
        · intro e he
          simp [validateLoop, h1, h2] at he
      · constructor
        · simp [validateLoop, h1, h2, chainTotalFrom, chainFreeFrom]
        · intro e he
          simp [validateLoop, h1, h2] at he
          subst he
          rfl
    · constructor
      · simp [validateLoop, h1, chainTotalFrom, chainFreeFrom]
      · intro e he
        simp [validateLoop, h1] at he
        subst he
        rfl
  | @cons b' gd l' hb hread htail ih =>
    intro fuel t f hf
    obtain ⟨fu, rfl⟩ : ∃ fu, fuel = fu + 1 := ⟨fuel - 1, by omega⟩
    have hf' : l'.length < fu := by
      simp only [List.length_cons] at hf
      omega
    by_cases h1 : gd.bg_parent_dinode = diBlk
    case neg =>
      constructor
      · simp only [validateLoop, if_neg hb, hread, if_pos (by exact h1 : gd.bg_parent_dinode ≠ diBlk)]
        simp only [reduceCtorEq, false_iff, List.forall_mem_cons, not_and]
        rintro ⟨hg, _⟩
        exact absurd hg.1 h1
      · intro e he
        simp only [validateLoop, if_neg hb, hread, if_pos (by exact h1 : gd.bg_parent_dinode ≠ diBlk)] at he
        simp only [Except.error.injEq] at he
        subst he
        rfl
    case pos =>
    by_cases h2 : gd.bg_chain = idx
    case neg =>
      constructor
      · simp only [validateLoop, if_neg hb, hread, if_neg (not_ne_iff.mpr h1),
          if_pos (by exact h2 : gd.bg_chain ≠ idx)]
        simp only [reduceCtorEq, false_iff, List.forall_mem_cons, not_and]
        rintro ⟨hg, _⟩
        exact absurd hg.2.1 h2
      · intro e he
        simp only [validateLoop, if_neg hb, hread, if_neg (not_ne_iff.mpr h1),
          if_pos (by exact h2 : gd.bg_chain ≠ idx)] at he
        simp only [Except.error.injEq] at he
        subst he
        rfl
    case pos =>
    by_cases h3 : tunefs_count_free_bits gd % 65536 = gd.bg_free_bits_count
    case neg =>
      constructor
      · simp only [validateLoop, if_neg hb, hread, if_neg (not_ne_iff.mpr h1),
          if_neg (not_ne_iff.mpr h2), if_pos (by exact h3 :
            tunefs_count_free_bits gd % 65536 ≠ gd.bg_free_bits_count)]
        simp only [reduceCtorEq, false_iff, List.forall_mem_cons, not_and]
        rintro ⟨hg, _⟩
        exact absurd hg.2.2.1 h3
      · intro e he
        simp only [validateLoop, if_neg hb, hread, if_neg (not_ne_iff.mpr h1),
          if_neg (not_ne_iff.mpr h2), if_pos (by exact h3 :
            tunefs_count_free_bits gd % 65536 ≠ gd.bg_free_bits_count)] at he
        simp only [Except.error.injEq] at he
        subst he
        rfl
    case pos =>
    by_cases h4 : gd.bg_size * 8 < gd.bg_bits
    case pos =>
      constructor
      · simp only [validateLoop, if_neg hb, hread, if_neg (not_ne_iff.mpr h1),
          if_neg (not_ne_iff.mpr h2), if_neg (not_ne_iff.mpr h3), if_pos h4]
        simp only [reduceCtorEq, false_iff, List.forall_mem_cons, not_and]
        rintro ⟨hg, _⟩
        have := hg.2.2.2.1
        omega
      · intro e he
        simp only [validateLoop, if_neg hb, hread, if_neg (not_ne_iff.mpr h1),
          if_neg (not_ne_iff.mpr h2), if_neg (not_ne_iff.mpr h3), if_pos h4] at he
        simp only [Except.error.injEq] at he
        subst he
        rfl
    case neg =>
    by_cases h5 : gd.bg_bits ≤ gd.bg_free_bits_count
    case pos =>
      constructor
      · simp only [validateLoop, if_neg hb, hread, if_neg (not_ne_iff.mpr h1),
          if_neg (not_ne_iff.mpr h2), if_neg (not_ne_iff.mpr h3), if_neg h4, if_pos h5]
        simp only [reduceCtorEq, false_iff, List.forall_mem_cons, not_and]
        rintro ⟨hg, _⟩
        have := hg.2.2.2.2
        omega
      · intro e he
        simp only [validateLoop, if_neg hb, hread, if_neg (not_ne_iff.mpr h1),
          if_neg (not_ne_iff.mpr h2), if_neg (not_ne_iff.mpr h3), if_neg h4, if_pos h5] at he
        simp only [Except.error.injEq] at he
        subst he
        rfl
    case neg =>
      have hgood : goodGroup diBlk idx gd := ⟨h1, h2, h3, by omega, by omega⟩
      have hspec := ih fu ((t + gd.bg_bits) % 4294967296)
        ((f + gd.bg_free_bits_count) % 4294967296) hf'
      constructor
      · simp only [validateLoop, if_neg hb, hread, if_neg (not_ne_iff.mpr h1),
          if_neg (not_ne_iff.mpr h2), if_neg (not_ne_iff.mpr h3), if_neg h4, if_neg h5,
          List.forall_mem_cons, chainTotalFrom_cons, chainFreeFrom_cons]
        rw [hspec.1]
        constructor
        · rintro ⟨hall, ht, hfr⟩
          exact ⟨⟨hgood, hall⟩, ht, hfr⟩
        · rintro ⟨⟨_, hall⟩, ht, hfr⟩
          exact ⟨hall, ht, hfr⟩
      · intro e he
        simp only [validateLoop, if_neg hb, hread, if_neg (not_ne_iff.mpr h1),
          if_neg (not_ne_iff.mpr h2), if_neg (not_ne_iff.mpr h3), if_neg h4, if_neg h5] at he
        exact hspec.2 e he

/-- Iterating the validator over chains `i, i+1, ..., i+k-1`: success exactly
when every one of those chains is consistent, and every failure is a
corruption outcome. -/
theorem checkChainsGo_spec (fuel : Nat) (read : Nat → Option GroupDesc) (di : ChainDinode) :
    ∀ k i,
      (∀ j, i ≤ j → j < i + k → ∃ l,
        ChainFrom read ((di.cl_recs.getD j ⟨0, 0, 0⟩).c_blkno) l ∧ l.length < fuel) →
      (((checkChainsGo fuel read di k i).1 = Except.ok ()) ↔
        (∀ j, i ≤ j → j < i + k → ∀ l,
          ChainFrom read ((di.cl_recs.getD j ⟨0, 0, 0⟩).c_blkno) l →
          chainConsistent di.i_blkno j (di.cl_recs.getD j ⟨0, 0, 0⟩) l)) ∧
      (∀ e, (checkChainsGo fuel read di k i).1 = Except.error e → e.isCorruption = true) := by
  intro k
  induction k with
  | zero =>
    intro i _
    constructor
    · simp only [checkChainsGo, true_iff]
      intro j h1 h2
      omega
    · intro e he
      simp only [checkChainsGo, reduceCtorEq] at he
  | succ k ihk =>
    intro i hyp
    obtain ⟨li, hli, hlen⟩ := hyp i (le_refl i) (by omega)
    have hv := validateLoop_spec read di.i_blkno i (di.cl_recs.getD i ⟨0, 0, 0⟩) hli fuel 0 0 hlen
    have hvg : ((tunefs_validate_chain_group fuel read di i).1 = Except.ok ()) ↔
        chainConsistent di.i_blkno i (di.cl_recs.getD i ⟨0, 0, 0⟩) li := hv.1
    cases hr : (tunefs_validate_chain_group fuel read di i).1 with
    | error e =>
      have hne : ¬ chainConsistent di.i_blkno i (di.cl_recs.getD i ⟨0, 0, 0⟩) li := by
        intro hc
        rw [hr] at hvg
        exact absurd (hvg.mpr hc) (by simp)
      constructor
      · simp only [checkChainsGo, hr, reduceCtorEq, false_iff, not_forall]
        exact ⟨i, le_refl i, by omega, li, hli, hne⟩
      · intro e' he'
        simp only [checkChainsGo, hr, Except.error.injEq] at he'
        subst he'
        exact hv.2 e hr
    | ok u =>
      cases u
      have hcons_i : ∀ l, ChainFrom read ((di.cl_recs.getD i ⟨0, 0, 0⟩).c_blkno) l →
          chainConsistent di.i_blkno i (di.cl_recs.getD i ⟨0, 0, 0⟩) l := by
        intro l hl
        obtain rfl := ChainFrom_unique hli hl
        exact hvg.mp hr
      have hrec := ihk (i + 1) (fun j hj1 hj2 => hyp j (by omega) (by omega))
      constructor
      · simp only [checkChainsGo, hr]
        rw [hrec.1]
        constructor
        · intro hall j hj1 hj2 l hl
          rcases Nat.eq_or_lt_of_le hj1 with rfl | hlt
          · exact hcons_i l hl
          · exact hall j (by omega) (by omega) l hl
        · intro hall j hj1 hj2 l hl
          exact hall j (by omega) (by omega) l hl
      · intro e he
        simp only [checkChainsGo, hr] at he
        exact hrec.2 e he

/-- A `TState` as it is at process start: all statics at their C
initializers, no environment variable. -/
def tstate0 : TState := {}

/-- C1 (amended): for every filesystem whose global-bitmap chain allocator
is fully consistent — for each group descriptor the free-bit count
recomputed by scanning the bitmap equals the stored free-bit count, the
declared bit count does not exceed 8 times the group's byte size, the
free-bit count is *strictly less than* the total-bit count, the parent
back-link equals the allocator inode's block and the chain index equals the
chain it is reached from, and for each chain record the sums of group
total/free bits equal the record's stated totals — `check_allocator`
(`tunefs_global_bitmap_check`) returns success; and if any one of those
fields violates its invariant, it returns a structural-corruption result
identifying the offending block.  (The claim's "free-bit count does not
exceed the total-bit count" is amended to a strict inequality: the code
rejects `bg_free_bits_count >= bg_bits`.) -/
theorem C1_global_bitmap_check_correct (fuel : Nat) (fs : AllocFS) (s : TState)
    (hwalk : ∀ i, i < fs.bitmapInode.cl_next_free_rec → ∃ l,
      ChainFrom fs.groups ((fs.bitmapInode.cl_recs.getD i ⟨0, 0, 0⟩).c_blkno) l ∧
        l.length < fuel) :
    (((tunefs_global_bitmap_check fuel fs s).1.1 = Except.ok ()) ↔
      (∀ i, i < fs.bitmapInode.cl_next_free_rec → ∀ l,
        ChainFrom fs.groups ((fs.bitmapInode.cl_recs.getD i ⟨0, 0, 0⟩).c_blkno) l →
        chainConsistent fs.bitmapInode.i_blkno i (fs.bitmapInode.cl_recs.getD i ⟨0, 0, 0⟩) l)) ∧
    (∀ e, (tunefs_global_bitmap_check fuel fs s).1.1 = Except.error e →
      e.isCorruption = true) := by
  have h := checkChainsGo_spec fuel fs.groups fs.bitmapInode fs.bitmapInode.cl_next_free_rec 0
    (fun j _ hj => hwalk j (by omega))
  have hres : (tunefs_global_bitmap_check fuel fs s).1.1 =
      (checkChainsGo fuel fs.groups fs.bitmapInode fs.bitmapInode.cl_next_free_rec 0).1 := rfl
  constructor
  · rw [hres, h.1]
    constructor
    · intro hall i hi l hl
      exact hall i (Nat.zero_le i) (by omega) l hl
    · intro hall j _ hj l hl
      exact hall j (by omega) l hl
  · intro e he
    rw [hres] at he
    exact h.2 e he

/-- A fully consistent one-chain, one-group global bitmap: 4 bits, bit 0
set, bits 1-3 clear, so 3 free bits as stored; parent and chain links
correct; chain record totals 4/3. -/
def gdOkEx : GroupDesc :=
  { bg_bits := 4, bg_free_bits_count := 3, bg_size := 1, bg_chain := 0,
    bg_parent_dinode := 50, bg_next_group := 0, bg_bitmap := fun i => i == 0 }

/-- The filesystem holding `gdOkEx` as the single group of chain 0. -/
def allocFSOk : AllocFS :=
  { bm_blkno := 10,
    bitmapInode := { i_blkno := 50, cl_next_free_rec := 1, cl_recs := [⟨100, 4, 3⟩] },
    groups := fun b => if b = 100 then some gdOkEx else none }

/-- Witness for C1: on the concrete consistent filesystem `allocFSOk` the
global-bitmap check succeeds, via `C1_global_bitmap_check_correct`. -/
theorem C1_witness :
    (tunefs_global_bitmap_check 2 allocFSOk tstate0).1.1 = Except.ok () := by
  have hchain : ChainFrom allocFSOk.groups 100 [(100, gdOkEx)] :=
    ChainFrom.cons (by decide) rfl ChainFrom.nil
  have hwalk : ∀ i, i < allocFSOk.bitmapInode.cl_next_free_rec → ∃ l,
      ChainFrom allocFSOk.groups ((allocFSOk.bitmapInode.cl_recs.getD i ⟨0, 0, 0⟩).c_blkno) l ∧
        l.length < 2 := by
    intro i hi
    have hi0 : i = 0 := by
      simpa [allocFSOk, Nat.lt_one_iff] using hi
    subst hi0
    exact ⟨[(100, gdOkEx)], hchain, by decide⟩
  apply (C1_global_bitmap_check_correct 2 allocFSOk tstate0 hwalk).1.mpr
  intro i hi l hl
  have hi0 : i = 0 := by
    simpa [allocFSOk, Nat.lt_one_iff] using hi
  subst hi0
  obtain rfl := ChainFrom_unique hchain hl
  refine ⟨?_, by decide, by decide⟩
  intro p hp
  simp only [List.mem_singleton] at hp
  subst hp
  decide

/-- A group that the claim's invariant accepts (free-bit count equal to the
total-bit count, bitmap fully clear) but the code rejects: 1 bit, 1 free
bit, bit clear. -/
def gdBadEx : GroupDesc :=
  { bg_bits := 1, bg_free_bits_count := 1, bg_size := 1, bg_chain := 0,
    bg_parent_dinode := 50, bg_next_group := 0, bg_bitmap := fun _ => false }

/-- The filesystem holding `gdBadEx` as the single group of chain 0, with
matching chain-record totals 1/1. -/
def allocFSBad : AllocFS :=
  { bm_blkno := 10,
    bitmapInode := { i_blkno := 50, cl_next_free_rec := 1, cl_recs := [⟨100, 1, 1⟩] },
    groups := fun b => if b = 100 then some gdBadEx else none }

/-- Counterexample to C1 as stated: on `allocFSBad` every invariant worded
by the claim holds — the recomputed free-bit count equals the stored one,
the bit count fits the byte capacity, the free count does not *exceed* the
total count (they are equal), the back-links match, and the chain record's
totals match the sums — yet `tunefs_global_bitmap_check` reports structural
corruption, because the code demands strictly fewer free bits than total
bits (`bg_free_bits_count >= bg_bits` is rejected). -/
theorem C1_counterexample :
    claimGoodGroup 50 0 gdBadEx
    ∧ (⟨100, 1, 1⟩ : ChainRec).c_total = chainTotalFrom 0 [(100, gdBadEx)]
    ∧ (⟨100, 1, 1⟩ : ChainRec).c_free = chainFreeFrom 0 [(100, gdBadEx)]
    ∧ ChainFrom allocFSBad.groups 100 [(100, gdBadEx)]
    ∧ (tunefs_global_bitmap_check 2 allocFSBad tstate0).1.1 =
        Except.error (ChainErr.freeGeBits 50 100) := by
  refine ⟨by decide, by decide, by decide,
    ChainFrom.cons (by decide) rfl ChainFrom.nil, ?_⟩
  rfl

/-! ### Consistency Validator: journal check

Embedding of `tunefs_journal_check` (libtunefs.c lines 872-931). -/

/-- The fields of a journal inode the check reads: `i_clusters` and the
`OCFS2_JOURNAL_DIRTY_FL` bit of `id1.journal1.ij_flags`. -/
structure JInode where
  i_clusters : Nat
  dirty : Bool
  deriving DecidableEq

/-- The filesystem view consumed by the journal check: the slot count from
the superblock, the per-slot journal system-inode lookup, and the inode
read at a block.  Lookup and read are modelled as succeeding; their failure
branches re-surface the provider error without touching anything. -/
structure JFS where
  maxSlots : Nat
  journalBlkno : Nat → Nat
  inodes : Nat → JInode

/-- The `for (i = 0; i < max_slots; ++i)` loop of `tunefs_journal_check`,
with `left` slots left to scan starting at slot `i`: read the slot's
journal inode, record the largest journal extent in the `journal_clusters`
global, and stop with `TUNEFS_ET_JOURNAL_DIRTY` at the first dirty flag. -/
def journalLoopGo (fs : JFS) : Nat → Nat → TState → List DiskOp →
    Option Err × TState × List DiskOp
  | 0, _, s, tr => (none, s, tr)
  | left + 1, i, s, tr =>
    let blkno := fs.journalBlkno i
    let di := fs.inodes blkno
    let tr2 := tr ++ [DiskOp.readInode blkno]
    let s2 := if s.journal_clusters < di.i_clusters then
        { s with journal_clusters := di.i_clusters } else s
    if di.dirty then (some Err.JOURNAL_DIRTY, s2, tr2)
    else journalLoopGo fs left (i + 1) s2 tr2

/-- `tunefs_journal_check` (lines 872-931). -/
def tunefs_journal_check (fs : JFS) (s : TState) : Option Err × TState × List DiskOp :=
  journalLoopGo fs fs.maxSlots 0 s []

/-- One clean step of the journal-scan loop. -/
theorem journalLoopGo_step_clean (fs : JFS) (le i : Nat) (s : TState) (tr : List DiskOp)
    (hnd : (fs.inodes (fs.journalBlkno i)).dirty = false) :
    journalLoopGo fs (le + 1) i s tr =
      journalLoopGo fs le (i + 1)
        (if s.journal_clusters < (fs.inodes (fs.journalBlkno i)).i_clusters then
          { s with journal_clusters := (fs.inodes (fs.journalBlkno i)).i_clusters } else s)
        (tr ++ [DiskOp.readInode (fs.journalBlkno i)]) := by
  simp only [journalLoopGo]
  rw [hnd]
  simp

/-- The dirty step of the journal-scan loop. -/
theorem journalLoopGo_step_dirty (fs : JFS) (le i : Nat) (s : TState) (tr : List DiskOp)
    (hd : (fs.inodes (fs.journalBlkno i)).dirty = true) :
    journalLoopGo fs (le + 1) i s tr =
      (some Err.JOURNAL_DIRTY,
        (if s.journal_clusters < (fs.inodes (fs.journalBlkno i)).i_clusters then
          { s with journal_clusters := (fs.inodes (fs.journalBlkno i)).i_clusters } else s),
        tr ++ [DiskOp.readInode (fs.journalBlkno i)]) := by
  simp only [journalLoopGo]
  rw [hd]
  simp

/-- Scanning slots `i, ..., maxSlots - 1` when the first dirty slot is `K`:
the loop reports the dirty journal and has read exactly the journal inodes
of slots `i` through `K`. -/
theorem journalLoopGo_dirty (fs : JFS) :
    ∀ left i s tr K, i + left = fs.maxSlots → i ≤ K → K < fs.maxSlots →
      (fs.inodes (fs.journalBlkno K)).dirty = true →
      (∀ j, i ≤ j → j < K → (fs.inodes (fs.journalBlkno j)).dirty = false) →
      (journalLoopGo fs left i s tr).1 = some Err.JOURNAL_DIRTY ∧
      (journalLoopGo fs left i s tr).2.2 =
        tr ++ (List.range' i (K + 1 - i)).map (fun j => DiskOp.readInode (fs.journalBlkno j)) := by
  intro left
  induction left with
  | zero =>
    intro i s tr K hleft hiK hK _ _
    omega
  | succ le ih =>
    intro i s tr K hleft hiK hK hdirty hmin
    rcases Nat.eq_or_lt_of_le hiK with rfl | hlt
    · rw [journalLoopGo_step_dirty fs le i s tr hdirty]
      refine ⟨rfl, ?_⟩
      have h1 : i + 1 - i = 1 := by omega
      rw [h1, List.range'_one, List.map_singleton]
    · have hnd : (fs.inodes (fs.journalBlkno i)).dirty = false := hmin i (le_refl i) hlt
      rw [journalLoopGo_step_clean fs le i s tr hnd]
      have hrec := ih (i + 1)
        (if s.journal_clusters < (fs.inodes (fs.journalBlkno i)).i_clusters then
          { s with journal_clusters := (fs.inodes (fs.journalBlkno i)).i_clusters } else s)
        (tr ++ [DiskOp.readInode (fs.journalBlkno i)]) K (by omega) (by omega) hK hdirty
        (fun j hj1 hj2 => hmin j (by omega) hj2)
      refine ⟨hrec.1, ?_⟩
      rw [hrec.2]
      have hsplit : K + 1 - i = (K - i) + 1 := by omega
      have hsplit2 : K + 1 - (i + 1) = K - i := by omega
      rw [hsplit, List.range'_succ, List.map_cons, hsplit2, List.append_assoc,
        List.singleton_append]

/-- Fold of the journal sizes of slots `i, ..., i + left - 1` into the
running maximum `jc`, mirroring the `journal_clusters` update of the scan. -/
def foldMaxClusters (fs : JFS) (i left jc : Nat) : Nat :=
  ((List.range' i left).map (fun j => (fs.inodes (fs.journalBlkno j)).i_clusters)).foldl
    Nat.max jc

theorem foldMaxClusters_succ (fs : JFS) (i le jc : Nat) :
    foldMaxClusters fs i (le + 1) jc =
      foldMaxClusters fs (i + 1) le (Nat.max jc (fs.inodes (fs.journalBlkno i)).i_clusters) := by
  simp [foldMaxClusters, List.range'_succ]

/-- Scanning `left` clean slots starting at `i`: the loop succeeds, folds
the per-slot journal sizes into `journal_clusters` with `max`, and reads
each slot's journal inode exactly once, in slot order. -/
theorem journalLoopGo_clean (fs : JFS) :
    ∀ left i s tr,
      (∀ j, i ≤ j → j < i + left → (fs.inodes (fs.journalBlkno j)).dirty = false) →
      journalLoopGo fs left i s tr =
        (none,
         { s with journal_clusters := foldMaxClusters fs i left s.journal_clusters },
         tr ++ (List.range' i left).map (fun j => DiskOp.readInode (fs.journalBlkno j))) := by
  intro left
  induction left with
  | zero =>
    intro i s tr _
    simp [journalLoopGo, foldMaxClusters]
  | succ le ih =>
    intro i s tr hclean
    have hnd : (fs.inodes (fs.journalBlkno i)).dirty = false :=
      hclean i (le_refl i) (by omega)
    rw [journalLoopGo_step_clean fs le i s tr hnd]
    rw [ih (i + 1) _ _ (fun j hj1 hj2 => hclean j (by omega) (by omega))]
    have hs2 : (if s.journal_clusters < (fs.inodes (fs.journalBlkno i)).i_clusters then
          { s with journal_clusters := (fs.inodes (fs.journalBlkno i)).i_clusters } else s) =
        { s with journal_clusters :=
            Nat.max s.journal_clusters (fs.inodes (fs.journalBlkno i)).i_clusters } := by
      by_cases h : s.journal_clusters < (fs.inodes (fs.journalBlkno i)).i_clusters
      · rw [if_pos h]
        have hmax : Nat.max s.journal_clusters (fs.inodes (fs.journalBlkno i)).i_clusters =
            (fs.inodes (fs.journalBlkno i)).i_clusters := Nat.max_eq_right (Nat.le_of_lt h)
        rw [hmax]
      · rw [if_neg h]
        have hmax : Nat.max s.journal_clusters (fs.inodes (fs.journalBlkno i)).i_clusters =
            s.journal_clusters := Nat.max_eq_left (Nat.le_of_not_lt h)
        rw [hmax]
    rw [hs2, foldMaxClusters_succ]
    simp [List.range'_succ]

/-- The journal scan touches no process-global state other than
`journal_clusters`, and appends only reads to the trace. -/
theorem journalLoopGo_frame (fs : JFS) :
    ∀ left i s tr,
      (∃ jc, (journalLoopGo fs left i s tr).2.1 = { s with journal_clusters := jc }) ∧
      ((∀ op ∈ tr, op.isWrite = false) →
        ∀ op ∈ (journalLoopGo fs left i s tr).2.2, op.isWrite = false) := by
  intro left
  induction left with
  | zero =>
    intro i s tr
    exact ⟨⟨s.journal_clusters, rfl⟩, fun h => h⟩
  | succ le ih =>
    intro i s tr
    by_cases hd : (fs.inodes (fs.journalBlkno i)).dirty = true
    · rw [journalLoopGo_step_dirty fs le i s tr hd]
      constructor
      · by_cases hc : s.journal_clusters < (fs.inodes (fs.journalBlkno i)).i_clusters
        · rw [if_pos hc]
          exact ⟨(fs.inodes (fs.journalBlkno i)).i_clusters, rfl⟩
        · rw [if_neg hc]
          exact ⟨s.journal_clusters, rfl⟩
      · intro h op hop
        simp only [List.mem_append, List.mem_singleton] at hop
        rcases hop with hop | rfl
        · exact h op hop
        · rfl
    · have hnd : (fs.inodes (fs.journalBlkno i)).dirty = false := by
        revert hd
        cases (fs.inodes (fs.journalBlkno i)).dirty <;> simp
      rw [journalLoopGo_step_clean fs le i s tr hnd]
      have hih := ih (i + 1)
        (if s.journal_clusters < (fs.inodes (fs.journalBlkno i)).i_clusters then
          { s with journal_clusters := (fs.inodes (fs.journalBlkno i)).i_clusters } else s)
        (tr ++ [DiskOp.readInode (fs.journalBlkno i)])
      constructor
      · obtain ⟨jc, hjc⟩ := hih.1
        refine ⟨jc, ?_⟩
        rw [hjc]
        by_cases hc : s.journal_clusters < (fs.inodes (fs.journalBlkno i)).i_clusters
        · rw [if_pos hc]
        · rw [if_neg hc]
      · intro h
        apply hih.2
        intro op hop
        simp only [List.mem_append, List.mem_singleton] at hop
        rcases hop with hop | rfl
        · exact h op hop
        · rfl

/-- The chain walk appends only group-descriptor reads to its trace. -/
theorem validateLoop_reads (read : Nat → Option GroupDesc) (diBlk idx : Nat) (cr : ChainRec) :
    ∀ fuel b t f op, op ∈ (validateLoop read diBlk idx cr fuel b t f).2 →
      op.isWrite = false := by
  intro fuel
  induction fuel with
  | zero =>
    intro b t f op h
    simp [validateLoop] at h
  | succ fu ih =>
    intro b t f op h
    by_cases hb : b = 0
    · subst hb
      simp only [validateLoop, if_pos rfl] at h
      split_ifs at h <;> simp at h
    · simp only [validateLoop, if_neg hb] at h
      cases hread : read b with
      | none =>
        rw [hread] at h
        simp only [List.mem_singleton] at h
        subst h
        rfl
      | some gd =>
        rw [hread] at h
        dsimp only at h
        split_ifs at h <;>
          first
          | (simp only [List.mem_singleton] at h
             subst h
             rfl)
          | (simp only [List.mem_cons] at h
             rcases h with rfl | h
             · rfl
             · exact ih _ _ _ _ h)

/-- The chain iteration appends only group-descriptor reads to its trace. -/
theorem checkChainsGo_reads (fuel : Nat) (read : Nat → Option GroupDesc) (di : ChainDinode) :
    ∀ k i op, op ∈ (checkChainsGo fuel read di k i).2 → op.isWrite = false := by
  intro k
  induction k with
  | zero =>
    intro i op h
    simp [checkChainsGo] at h
  | succ k ihk =>
    intro i op h
    simp only [checkChainsGo] at h
    cases hr : (tunefs_validate_chain_group fuel read di i).1 with
    | error e =>
      rw [hr] at h
      exact validateLoop_reads read di.i_blkno i _ fuel _ 0 0 op h
    | ok u =>
      cases u
      rw [hr] at h
      simp only [List.mem_append] at h
      rcases h with h | h
      · exact validateLoop_reads read di.i_blkno i _ fuel _ 0 0 op h
      · exact ihk (i + 1) op h

/-- C4: for every filesystem with `max_slots` slots, if some slot has its
journal dirty flag set, `check_journals` (`tunefs_journal_check`) returns
the distinguished "journal dirty" error without reading the journal inodes
of any slot after the first dirty one (the trace stops at the first dirty
slot); if no slot is dirty, it returns success with `journal_clusters`
holding the running maximum of the journal extents of all slots. -/
theorem C4_journal_check_spec (fs : JFS) (s : TState) :
    (∀ K, K < fs.maxSlots → (fs.inodes (fs.journalBlkno K)).dirty = true →
      (∀ j, j < K → (fs.inodes (fs.journalBlkno j)).dirty = false) →
      (tunefs_journal_check fs s).1 = some Err.JOURNAL_DIRTY ∧
      (tunefs_journal_check fs s).2.2 =
        (List.range (K + 1)).map (fun j => DiskOp.readInode (fs.journalBlkno j)))
    ∧ ((∀ j, j < fs.maxSlots → (fs.inodes (fs.journalBlkno j)).dirty = false) →
      (tunefs_journal_check fs s).1 = none ∧
      (tunefs_journal_check fs s).2.1.journal_clusters =
        foldMaxClusters fs 0 fs.maxSlots s.journal_clusters) := by
  constructor
  · intro K hK hdirty hmin
    have h := journalLoopGo_dirty fs fs.maxSlots 0 s [] K (by omega) (Nat.zero_le K) hK
      hdirty (fun j _ hj => hmin j hj)
    refine ⟨h.1, ?_⟩
    have h2 := h.2
    rw [Nat.sub_zero, List.nil_append, ← List.range_eq_range'] at h2
    exact h2
  · intro hclean
    have h := journalLoopGo_clean fs fs.maxSlots 0 s [] (fun j _ hj => hclean j (by omega))
    constructor
    · show (journalLoopGo fs fs.maxSlots 0 s []).1 = none
      rw [h]
    · show (journalLoopGo fs fs.maxSlots 0 s []).2.1.journal_clusters = _
      rw [h]

/-- A three-slot filesystem whose slot 1 journal is dirty. -/
def jfsDirty : JFS :=
  { maxSlots := 3, journalBlkno := fun i => 200 + i,
    inodes := fun b => if b = 201 then ⟨5, true⟩ else ⟨2, false⟩ }

/-- A two-slot filesystem with clean journals of 2 and 7 clusters. -/
def jfsClean : JFS :=
  { maxSlots := 2, journalBlkno := fun i => 300 + i,
    inodes := fun b => if b = 301 then ⟨7, false⟩ else ⟨2, false⟩ }

/-- Witness for C4: on `jfsDirty` the check stops at slot 1 with the
journal-dirty error having read only slots 0 and 1; on `jfsClean` it
succeeds and records the maximum extent 7. -/
theorem C4_witness :
    (tunefs_journal_check jfsDirty tstate0).1 = some Err.JOURNAL_DIRTY
    ∧ (tunefs_journal_check jfsDirty tstate0).2.2 =
        [DiskOp.readInode 200, DiskOp.readInode 201]
    ∧ (tunefs_journal_check jfsClean tstate0).1 = none
    ∧ (tunefs_journal_check jfsClean tstate0).2.1.journal_clusters = 7 := by
  have h1 := (C4_journal_check_spec jfsDirty tstate0).1 1 (by decide) (by decide)
    (by decide)
  have h2 := (C4_journal_check_spec jfsClean tstate0).2 (by decide)
  refine ⟨h1.1, ?_, h2.1, ?_⟩
  · rw [h1.2]
    decide
  · rw [h2.2]
    decide

/-- C3 (amended): both `tunefs_journal_check` and
`tunefs_global_bitmap_check` issue only reads toward the device; the
allocator check leaves every process global unchanged; the journal check
leaves every process global unchanged *except* `journal_clusters`, in
which it records the maximum journal extent seen.  (The claim's "no
process-global variable is changed" fails for the journal check's
`journal_clusters` update.) -/
theorem C3_checks_read_only (jfs : JFS) (afs : AllocFS) (fuel : Nat) (s s2 : TState) :
    (∀ op ∈ (tunefs_journal_check jfs s).2.2, op.isWrite = false)
    ∧ (∃ jc, (tunefs_journal_check jfs s).2.1 = { s with journal_clusters := jc })
    ∧ (∀ op ∈ (tunefs_global_bitmap_check fuel afs s2).1.2, op.isWrite = false)
    ∧ (tunefs_global_bitmap_check fuel afs s2).2 = s2 := by
  refine ⟨?_, (journalLoopGo_frame jfs jfs.maxSlots 0 s []).1, ?_, rfl⟩
  · exact (journalLoopGo_frame jfs jfs.maxSlots 0 s []).2 (by simp)
  · intro op hop
    simp only [tunefs_global_bitmap_check, List.mem_cons] at hop
    rcases hop with rfl | hop
    · rfl
    · exact checkChainsGo_reads fuel afs.groups afs.bitmapInode _ 0 op hop

/-- Witness for C3 (amended), on concrete inputs: the allocator check hands
back the state unchanged and the journal check only moves
`journal_clusters`. -/
theorem C3_witness :
    (tunefs_global_bitmap_check 2 allocFSOk tstate0).2 = tstate0
    ∧ (∃ jc, (tunefs_journal_check jfsClean tstate0).2.1 =
        { tstate0 with journal_clusters := jc }) := by
  have h := C3_checks_read_only jfsClean allocFSOk 2 tstate0 tstate0
  exact ⟨h.2.2.2, h.2.1⟩

/-- Counterexample to C3 as stated: running the journal check on
`jfsClean` succeeds but *does* change a process-global variable — the
`journal_clusters` static goes from 0 to 7 — so the journal check is not
free of process-visible side effects beyond its result. -/
theorem C3_counterexample :
    (tunefs_journal_check jfsClean tstate0).1 = none
    ∧ tstate0.journal_clusters = 0
    ∧ (tunefs_journal_check jfsClean tstate0).2.1.journal_clusters = 7
    ∧ (tunefs_journal_check jfsClean tstate0).2.1 ≠ tstate0 := by
  refine ⟨rfl, rfl, rfl, ?_⟩
  intro h
  have h7 : (tunefs_journal_check jfsClean tstate0).2.1.journal_clusters =
      tstate0.journal_clusters := by rw [h]
  simp only [tstate0] at h7
  exact absurd h7 (by decide)

/-! ### Access Coordinator

Embedding of `tunefs_lock_local`, `tunefs_unlock_local`,
`tunefs_get_lock_env`, `tunefs_set_lock_env`, `tunefs_lock_cluster`,
`tunefs_unlock_cluster` (libtunefs.c lines 477-668) and the close path
(lines 975-984, 1034-1044, 1141-1166). -/

/-- Outcome of `open64(fs->fs_devname, O_RDWR | O_EXCL)`: the descriptor,
or the `errno` class the code distinguishes. -/
inductive OpenResult where
  | ok (fd : Nat)
  | busy
  | noEnt
  | otherErrno
  deriving DecidableEq

/-- The `TUNEFS_FLAG_*` open-mode bits the embedded functions consult. -/
structure Flags where
  rw : Bool := false
  online : Bool := false
  nocluster : Bool := false
  allocation : Bool := false
  deriving DecidableEq

/-- A filesystem handle together with the responses of the external
collaborators for this device: the volume kind (`ocfs2_mount_local`), the
exclusive-open outcome, the mount flags that `ocfs2_check_if_mounted` /
`ocfs2_check_mount_point` report (modelled as succeeding), and the results
of the cluster-lock-manager entry points.  `dlmCtxt` is the handle's
mutable `fs_dlm_ctxt` pointer (as a presence bit). -/
structure FS where
  id : Nat := 0
  mountLocal : Bool := false
  openExcl : OpenResult := OpenResult.otherErrno
  mounted : Bool := false
  readonly : Bool := false
  swap : Bool := false
  o2cbInit : Option Err := none
  dlmInit : Option Err := none
  lockDown : Option Err := none
  releaseRes : Option Err := none
  shutdownRes : Option Err := none
  closeRes : Option Err := none
  dlmCtxt : Bool := false
  deriving DecidableEq

/-- `tunefs_lock_local` (lines 517-553).  `ocfs2_check_if_mounted` is
modelled as succeeding with the mount flags carried by the handle; its
failure branch re-surfaces the provider error without classifying.  The
third component reports whether this call performed a new device open. -/
def tunefs_lock_local (fs : FS) (flags : Flags) (s : TState) :
    Option Err × TState × Bool :=
  if s.local_fd_count ≠ 0 then
    (none, { s with local_fd_count := s.local_fd_count + 1 }, false)
  else
    match fs.openExcl with
    | OpenResult.busy =>
      if !fs.mounted || fs.readonly || fs.swap || !flags.online then
        (some Err.DEVICE_BUSY, s, false)
      else
        (some Err.PERFORM_ONLINE, s, false)
    | OpenResult.noEnt => (some Err.NAMED_DEVICE_NOT_FOUND, s, false)
    | OpenResult.otherErrno => (some Err.IO_ERROR, s, false)
    | OpenResult.ok fd =>
      (none, { s with local_fd := (fd : Int), local_fd_count := 1 }, true)

/-- `tunefs_unlock_local` (lines 555-564). -/
def tunefs_unlock_local (s : TState) : TState :=
  if s.local_fd_count ≠ 0 then
    if s.local_fd_count - 1 = 0 then
      { s with local_fd_count := 0, local_fd := -1 }
    else
      { s with local_fd_count := s.local_fd_count - 1 }
  else s

/-- `tunefs_set_lock_env` (lines 477-488), with `setenv`/`unsetenv`
modelled as succeeding. -/
def tunefs_set_lock_env (v : Option String) (s : TState) : TState :=
  { s with lockEnv := v }

/-- `tunefs_get_lock_env` (lines 490-510): classify the inherited token.
An absent variable or an unrecognized value yields
`TUNEFS_ET_INVALID_STACK_NAME`. -/
def tunefs_get_lock_env (s : TState) : Option Err :=
  match s.lockEnv with
  | none => some Err.INVALID_STACK_NAME
  | some v =>
    if v = "online" then some Err.PERFORM_ONLINE
    else if v = "locked" then none
    else some Err.INVALID_STACK_NAME

/-- `tunefs_unlock_cluster` (lines 566-594).  The `!fs` null guard lives in
the caller model (`tunefs_close` matches on the optional handle). -/
def tunefs_unlock_cluster (fs : FS) (s : TState) : Option Err × FS × TState :=
  let s := if fs.mountLocal then tunefs_unlock_local s else s
  let r1 : Option Err × TState :=
    if s.cluster_locked = true ∧ fs.dlmCtxt = true then
      (fs.releaseRes, { s with cluster_locked := false })
    else (none, s)
  let r2 : Option Err × FS :=
    if fs.dlmCtxt = true then
      ((if r1.1 = none then fs.shutdownRes else r1.1), { fs with dlmCtxt := false })
    else (r1.1, fs)
  (r2.1, r2.2, tunefs_set_lock_env none r1.2)

/-- The `out_set` tail of `tunefs_lock_cluster` (lines 650-664): record the
handoff token matching the classification.  Under the
infallible-environment model the `set_lock_env`-failure unlock branch is
dead. -/
def lockClusterOutSet (err : Option Err) (fs : FS) (s : TState) : Option Err × FS × TState :=
  if err = none ∧ s.cluster_locked = true then
    (err, fs, tunefs_set_lock_env (some "locked") s)
  else if err = some Err.PERFORM_ONLINE then
    (err, fs, tunefs_set_lock_env (some "online") s)
  else
    (err, fs, tunefs_set_lock_env none s)

/-- `tunefs_lock_cluster` (lines 596-668). -/
def tunefs_lock_cluster (fs : FS) (flags : Flags) (s : TState) : Option Err × FS × TState :=
  if fs.mountLocal then
    let r := tunefs_lock_local fs flags s
    lockClusterOutSet r.1 fs r.2.1
  else
    let envErr := tunefs_get_lock_env s
    if envErr = none ∨ (flags.online = true ∧ envErr = some Err.PERFORM_ONLINE) then
      (envErr, fs, s)
    else
      match fs.o2cbInit with
      | some e => (some e, fs, s)
      | none =>
        let dlmErr := fs.dlmInit
        let fs2 := if dlmErr = none then { fs with dlmCtxt := true } else fs
        if flags.nocluster = true ∧ dlmErr = none then
          lockClusterOutSet none fs2 s
        else if flags.nocluster = true ∧ dlmErr = some Err.O2CB_INVALID_STACK_NAME then
          lockClusterOutSet (some Err.INVALID_STACK_NAME) fs2 s
        else
          match dlmErr with
          | some e => (some e, fs2, s)
          | none =>
            match fs.lockDown with
            | none =>
              lockClusterOutSet none fs2 { s with cluster_locked := true }
            | some e =>
              if e = Err.TRYLOCK_FAILED ∧ flags.online = true then
                lockClusterOutSet (some Err.PERFORM_ONLINE) fs2 s
              else
                (some e, { fs2 with dlmCtxt := false }, s)

/-- `tunefs_close_online_descriptor` (lines 975-984). -/
def tunefs_close_online_descriptor (s : TState) : TState :=
  if s.online_fd_count ≠ 0 then
    if s.online_fd_count - 1 = 0 then
      { s with online_fd_count := 0, online_fd := -1 }
    else
      { s with online_fd_count := s.online_fd_count - 1 }
  else s

/-- `tunefs_remove_fs` (lines 1034-1044): deregister a handle from the
process-wide list. -/
def tunefs_remove_fs (id : Nat) (s : TState) : TState :=
  { s with registry := s.registry.erase id }

/-- `tunefs_close` (lines 1141-1166), over an optional handle since the C
function accepts NULL. -/
def tunefs_close (ofs : Option FS) (s : TState) : Option Err × TState :=
  match ofs with
  | none => (none, s)
  | some fs =>
    let s1 := tunefs_remove_fs fs.id s
    let s2 := tunefs_close_online_descriptor s1
    let r := tunefs_unlock_cluster fs s2
    ((if r.1 = none then fs.closeRes else r.1), r.2.2)

/-- C5: when the first local-exclusive acquisition fails with `EBUSY`,
`tunefs_lock_local` returns `TUNEFS_ET_PERFORM_ONLINE` exactly when the
device is mounted, not read-only, not a swap volume, and the caller passed
`TUNEFS_FLAG_ONLINE`; in every other busy case it returns
`TUNEFS_ET_DEVICE_BUSY`. -/
theorem C5_lock_local_busy (fs : FS) (flags : Flags) (s : TState)
    (h0 : s.local_fd_count = 0) (hbusy : fs.openExcl = OpenResult.busy) :
    ((tunefs_lock_local fs flags s).1 = some Err.PERFORM_ONLINE ↔
      (fs.mounted = true ∧ fs.readonly = false ∧ fs.swap = false ∧ flags.online = true))
    ∧ ((tunefs_lock_local fs flags s).1 = some Err.DEVICE_BUSY ↔
      ¬(fs.mounted = true ∧ fs.readonly = false ∧ fs.swap = false ∧ flags.online = true)) := by
  cases hm : fs.mounted <;> cases hr : fs.readonly <;> cases hsw : fs.swap <;>
    cases ho : flags.online <;>
      simp [tunefs_lock_local, h0, hbusy, hm, hr, hsw, ho]

/-- Witness for C5: a busy, mounted, read-write, non-swap device with an
online-capable caller is classified `PERFORM_ONLINE`; dropping the online
flag yields `DEVICE_BUSY`. -/
theorem C5_witness :
    (tunefs_lock_local { mountLocal := true, openExcl := OpenResult.busy, mounted := true }
      { rw := true, online := true } tstate0).1 = some Err.PERFORM_ONLINE
    ∧ (tunefs_lock_local { mountLocal := true, openExcl := OpenResult.busy, mounted := true }
      { rw := true } tstate0).1 = some Err.DEVICE_BUSY := by
  constructor
  · exact (C5_lock_local_busy _ { rw := true, online := true } tstate0 rfl rfl).1.mpr
      ⟨rfl, rfl, rfl, rfl⟩
  · exact (C5_lock_local_busy _ { rw := true } tstate0 rfl rfl).2.mpr (by simp)

/-- C6: local-exclusive acquire and release are reference-counted.
Starting with no lock held and a successful exclusive open: the first
acquisition opens the device (count 1); the second performs no new open
and only bumps the count; releasing once leaves the descriptor open with
count 1; releasing again closes it (count 0, descriptor reset to -1). -/
theorem C6_lock_local_refcount (fs : FS) (flags : Flags) (s : TState) (fd : Nat)
    (h0 : s.local_fd_count = 0) (hopen : fs.openExcl = OpenResult.ok fd) :
    tunefs_lock_local fs flags s =
      (none, { s with local_fd := (fd : Int), local_fd_count := 1 }, true)
    ∧ tunefs_lock_local fs flags { s with local_fd := (fd : Int), local_fd_count := 1 } =
      (none, { s with local_fd := (fd : Int), local_fd_count := 2 }, false)
    ∧ tunefs_unlock_local { s with local_fd := (fd : Int), local_fd_count := 2 } =
      { s with local_fd := (fd : Int), local_fd_count := 1 }
    ∧ tunefs_unlock_local { s with local_fd := (fd : Int), local_fd_count := 1 } =
      { s with local_fd := -1, local_fd_count := 0 } := by
  refine ⟨?_, ?_, ?_, ?_⟩ <;>
    simp [tunefs_lock_local, tunefs_unlock_local, h0, hopen]

/-- Witness for C6 at a concrete state and descriptor. -/
theorem C6_witness :
    tunefs_lock_local { openExcl := OpenResult.ok 9 } { rw := true } tstate0 =
      (none, { tstate0 with local_fd := (9 : Int), local_fd_count := 1 }, true)
    ∧ tunefs_unlock_local { tstate0 with local_fd := (9 : Int), local_fd_count := 1 } =
      { tstate0 with local_fd := -1, local_fd_count := 0 } := by
  have h := C6_lock_local_refcount { openExcl := OpenResult.ok 9 } { rw := true }
    tstate0 9 rfl rfl
  exact ⟨h.1, h.2.2.2⟩

theorem lockClusterOutSet_fst (err : Option Err) (fs : FS) (s : TState) :
    (lockClusterOutSet err fs s).1 = err := by
  unfold lockClusterOutSet
  split_ifs <;> rfl

theorem lockClusterOutSet_env (err : Option Err) (fs : FS) (s : TState) :
    (lockClusterOutSet err fs s).2.2.lockEnv =
      (if err = none ∧ s.cluster_locked = true then some "locked"
       else if err = some Err.PERFORM_ONLINE then some "online" else none) := by
  unfold lockClusterOutSet
  split_ifs <;> rfl

/-- Acquiring the local lock changes neither the cluster-lock flag nor the
environment token. -/
theorem tunefs_lock_local_frame (fs : FS) (flags : Flags) (s : TState) :
    (tunefs_lock_local fs flags s).2.1.cluster_locked = s.cluster_locked ∧
    (tunefs_lock_local fs flags s).2.1.lockEnv = s.lockEnv := by
  by_cases h0 : s.local_fd_count ≠ 0
  · simp [tunefs_lock_local, h0]
  · cases h : fs.openExcl <;>
      simp [tunefs_lock_local, h0, h] <;>
      split_ifs <;> simp

theorem tunefs_get_lock_env_eq_none {s : TState} :
    tunefs_get_lock_env s = none ↔ s.lockEnv = some "locked" := by
  cases h : s.lockEnv with
  | none => simp [tunefs_get_lock_env, h]
  | some v =>
    simp only [tunefs_get_lock_env, h]
    by_cases hv : v = "online"
    · simp [hv]
    · by_cases hl : v = "locked" <;> simp [hv, hl]

theorem tunefs_get_lock_env_eq_online {s : TState} :
    tunefs_get_lock_env s = some Err.PERFORM_ONLINE ↔ s.lockEnv = some "online" := by
  cases h : s.lockEnv with
  | none => simp [tunefs_get_lock_env, h]
  | some v =>
    simp only [tunefs_get_lock_env, h]
    by_cases hv : v = "online"
    · simp [hv]
    · by_cases hl : v = "locked" <;> simp [hv, hl]

/-- The mount-local branch of `tunefs_lock_cluster`. -/
theorem tunefs_lock_cluster_local (fs : FS) (flags : Flags) (s : TState)
    (hml : fs.mountLocal = true) :
    tunefs_lock_cluster fs flags s =
      lockClusterOutSet (tunefs_lock_local fs flags s).1 fs
        (tunefs_lock_local fs flags s).2.1 := by
  simp [tunefs_lock_cluster, hml]

/-- The inherited-token shortcut of `tunefs_lock_cluster`. -/
theorem tunefs_lock_cluster_inherited (fs : FS) (flags : Flags) (s : TState)
    (hml : fs.mountLocal = false)
    (hE : tunefs_get_lock_env s = none ∨
      (flags.online = true ∧ tunefs_get_lock_env s = some Err.PERFORM_ONLINE)) :
    tunefs_lock_cluster fs flags s = (tunefs_get_lock_env s, fs, s) := by
  simp only [tunefs_lock_cluster, hml, Bool.false_eq_true, if_false]
  rw [if_pos hE]

/-- The external lock-manager entry points never return the tunefs-internal
classification code `TUNEFS_ET_PERFORM_ONLINE`. -/
def LockMgrOk (fs : FS) : Prop :=
  fs.o2cbInit ≠ some Err.PERFORM_ONLINE ∧
  fs.dlmInit ≠ some Err.PERFORM_ONLINE ∧
  fs.lockDown ≠ some Err.PERFORM_ONLINE

instance (fs : FS) : Decidable (LockMgrOk fs) := by
  unfold LockMgrOk
  infer_instance

/-- C2 (amended): after `tunefs_lock_cluster`, the handoff token reflects
how the lock is held, not merely that acquisition succeeded: a mount-local
success *clears* the token; a cluster-managed success with the no-cluster
flag unset leaves it at "locked" (freshly set, or inherited and kept); a
cluster-managed success under the no-cluster flag keeps an inherited
"locked" and otherwise clears it; and every `PERFORM_ONLINE` outcome
leaves it at "online".  (The claim asserts that a mount-local success also
sets "locked"; the counterexample refutes that — `out_set` writes "locked"
only when `cluster_locked` is set, which the local path never does.) -/
theorem C2_lock_cluster_env (fs : FS) (flags : Flags) (s : TState)
    (hx : LockMgrOk fs) (hcl : s.cluster_locked = false) :
    ((tunefs_lock_cluster fs flags s).1 = none → fs.mountLocal = true →
      (tunefs_lock_cluster fs flags s).2.2.lockEnv = none)
    ∧ ((tunefs_lock_cluster fs flags s).1 = none → fs.mountLocal = false →
      flags.nocluster = false →
      (tunefs_lock_cluster fs flags s).2.2.lockEnv = some "locked")
    ∧ ((tunefs_lock_cluster fs flags s).1 = none → fs.mountLocal = false →
      flags.nocluster = true →
      ((tunefs_lock_cluster fs flags s).2.2.lockEnv = some "locked" ∨
        (tunefs_lock_cluster fs flags s).2.2.lockEnv = none))
    ∧ ((tunefs_lock_cluster fs flags s).1 = some Err.PERFORM_ONLINE →
      (tunefs_lock_cluster fs flags s).2.2.lockEnv = some "online") := by
  by_cases hml : fs.mountLocal = true
  · have heq := tunefs_lock_cluster_local fs flags s hml
    have hframe := tunefs_lock_local_frame fs flags s
    rw [heq, lockClusterOutSet_fst, lockClusterOutSet_env]
    refine ⟨?_, ?_, ?_, ?_⟩
    · intro hnone _
      simp [hnone, hframe.1, hcl]
    · intro _ habs _
      rw [hml] at habs
      simp at habs
    · intro _ habs _
      rw [hml] at habs
      simp at habs
    · intro hpo
      simp [hpo]
  · have hml' : fs.mountLocal = false := by
      revert hml
      cases fs.mountLocal <;> simp
    by_cases hE : tunefs_get_lock_env s = none ∨
        (flags.online = true ∧ tunefs_get_lock_env s = some Err.PERFORM_ONLINE)
    · have heq := tunefs_lock_cluster_inherited fs flags s hml' hE
      rw [heq]
      refine ⟨?_, ?_, ?_, ?_⟩
      · intro _ habs
        rw [hml'] at habs
        simp at habs
      · intro hnone _ _
        exact tunefs_get_lock_env_eq_none.mp hnone
      · intro hnone _ _
        exact Or.inl (tunefs_get_lock_env_eq_none.mp hnone)
      · intro hpo
        exact tunefs_get_lock_env_eq_online.mp hpo
    · cases ho : fs.o2cbInit with
      | some e =>
        have heq : tunefs_lock_cluster fs flags s = (some e, fs, s) := by
          simp only [tunefs_lock_cluster, hml', Bool.false_eq_true, if_false]
          rw [if_neg hE]
          simp [ho]
        rw [heq]
        refine ⟨by simp, by simp, by simp, ?_⟩
        intro hpo
        simp only [Option.some.injEq] at hpo
        rw [hpo] at ho
        exact absurd ho hx.1
      | none =>
        by_cases hnc : flags.nocluster = true
        · cases hdlm : fs.dlmInit with
          | none =>
            have heq : tunefs_lock_cluster fs flags s =
                lockClusterOutSet none { fs with dlmCtxt := true } s := by
              simp only [tunefs_lock_cluster, hml', Bool.false_eq_true, if_false]
              rw [if_neg hE]
              simp [ho, hdlm, hnc]
            rw [heq, lockClusterOutSet_fst, lockClusterOutSet_env]
            refine ⟨?_, ?_, ?_, by simp⟩
            · intro _ habs
              rw [hml'] at habs
              simp at habs
            · intro _ _ habs
              rw [hnc] at habs
              simp at habs
            · intro _ _ _
              right
              simp [hcl]
          | some e =>
            by_cases hinv : e = Err.O2CB_INVALID_STACK_NAME
            · subst hinv
              have heq : tunefs_lock_cluster fs flags s =
                  lockClusterOutSet (some Err.INVALID_STACK_NAME) fs s := by
                simp only [tunefs_lock_cluster, hml', Bool.false_eq_true, if_false]
                rw [if_neg hE]
                simp [ho, hdlm, hnc]
              rw [heq, lockClusterOutSet_fst, lockClusterOutSet_env]
              exact ⟨by simp, by simp, by simp, by simp⟩
            · have heq : tunefs_lock_cluster fs flags s = (some e, fs, s) := by
                simp only [tunefs_lock_cluster, hml', Bool.false_eq_true, if_false]
                rw [if_neg hE]
                simp [ho, hdlm, hnc, hinv]
              rw [heq]
              refine ⟨by simp, by simp, by simp, ?_⟩
              intro hpo
              simp only [Option.some.injEq] at hpo
              rw [hpo] at hdlm
              exact absurd hdlm hx.2.1
        · have hnc' : flags.nocluster = false := by
            revert hnc
            cases flags.nocluster <;> simp
          cases hdlm : fs.dlmInit with
          | some e =>
            have heq : tunefs_lock_cluster fs flags s = (some e, fs, s) := by
              simp only [tunefs_lock_cluster, hml', Bool.false_eq_true, if_false]
              rw [if_neg hE]
              simp [ho, hdlm, hnc']
            rw [heq]
            refine ⟨by simp, by simp, by simp, ?_⟩
            intro hpo
            simp only [Option.some.injEq] at hpo
            rw [hpo] at hdlm
            exact absurd hdlm hx.2.1
          | none =>
            cases hld : fs.lockDown with
            | none =>
              have heq : tunefs_lock_cluster fs flags s =
                  lockClusterOutSet none { fs with dlmCtxt := true }
                    { s with cluster_locked := true } := by
                simp only [tunefs_lock_cluster, hml', Bool.false_eq_true, if_false]
                rw [if_neg hE]
                simp [ho, hdlm, hnc', hld]
              rw [heq, lockClusterOutSet_fst, lockClusterOutSet_env]
              refine ⟨?_, ?_, ?_, by simp⟩
              · intro _ habs
                rw [hml'] at habs
                simp at habs
              · intro _ _ _
                simp
              · intro _ _ habs
                rw [hnc'] at habs
                simp at habs
            | some e =>
              by_cases htl : e = Err.TRYLOCK_FAILED ∧ flags.online = true
              · have heq : tunefs_lock_cluster fs flags s =
                    lockClusterOutSet (some Err.PERFORM_ONLINE)
                      { fs with dlmCtxt := true } s := by
                  simp only [tunefs_lock_cluster, hml', Bool.false_eq_true, if_false]
                  rw [if_neg hE]
                  simp only [ho, hdlm, hnc', hld]
                  simp only [Bool.false_eq_true, false_and, if_false, reduceCtorEq,
                    and_false]
                  rw [if_pos htl]
                  simp
                rw [heq, lockClusterOutSet_fst, lockClusterOutSet_env]
                exact ⟨by simp, by simp, by simp, by simp⟩
              · have heq : tunefs_lock_cluster fs flags s =
                    (some e, { fs with dlmCtxt := false }, s) := by
                  simp only [tunefs_lock_cluster, hml', Bool.false_eq_true, if_false]
                  rw [if_neg hE]
                  simp only [ho, hdlm, hnc', hld]
                  simp only [Bool.false_eq_true, false_and, if_false, reduceCtorEq,
                    and_false]
                  rw [if_neg htl]
                  simp
                rw [heq]
                refine ⟨by simp, by simp, by simp, ?_⟩
                intro hpo
                simp only [Option.some.injEq] at hpo
                rw [hpo] at hld
                exact absurd hld hx.2.2

/-- A mount-local volume whose exclusive open succeeds. -/
def fsLocalOk : FS := { id := 1, mountLocal := true, openExcl := OpenResult.ok 7 }

/-- Counterexample to C2 as stated: on the mount-local volume `fsLocalOk`
the acquisition fully succeeds — the local exclusive descriptor is
obtained (`local_fd_count` becomes 1) — yet `tunefs_lock_cluster` leaves
the handoff token *unset* rather than set to "locked": a child process
would have to re-acquire. -/
theorem C2_counterexample :
    (tunefs_lock_cluster fsLocalOk { rw := true } tstate0).1 = none
    ∧ (tunefs_lock_cluster fsLocalOk { rw := true } tstate0).2.2.local_fd_count = 1
    ∧ (tunefs_lock_cluster fsLocalOk { rw := true } tstate0).2.2.lockEnv = none
    ∧ (tunefs_lock_cluster fsLocalOk { rw := true } tstate0).2.2.lockEnv ≠ some "locked" := by
  refine ⟨rfl, rfl, rfl, ?_⟩
  decide

/-- A cluster-managed volume where the lock-manager init and lock-down all
succeed. -/
def fsClusterOk : FS := { id := 2 }

/-- Witness for C2 (amended): a fresh cluster lock acquisition succeeds and
leaves the handoff token at "locked", via `C2_lock_cluster_env`. -/
theorem C2_witness :
    (tunefs_lock_cluster fsClusterOk { rw := true } tstate0).1 = none
    ∧ (tunefs_lock_cluster fsClusterOk { rw := true } tstate0).2.2.lockEnv = some "locked" := by
  have h := C2_lock_cluster_env fsClusterOk { rw := true } tstate0 (by decide) rfl
  exact ⟨rfl, h.2.1 rfl rfl rfl⟩

/-- C10: calling `tunefs_close` with a NULL filesystem handle is a safe
no-op: it returns success (0) and changes no process state — no registry
entry removed, no descriptor closed, no lock released, no environment
change. -/
theorem C10_close_null (s : TState) : tunefs_close none s = (none, s) := rfl

/-! ### Handle Registry

Embedding of `tunefs_add_fs` (lines 1011-1032), `tunefs_close_all`
(lines 194-203) and `handle_signal` (lines 205-246). -/

/-- `tunefs_add_fs`: registration *pushes* onto the front of `fs_list`
(deliberately, per the comment in the code: the first open holds the
locks, so it must be the last close — a FILO stack). -/
def tunefs_add_fs (id : Nat) (s : TState) : TState :=
  { s with registry := id :: s.registry }

/-- The `list_for_each_safe` walk of `tunefs_close_all`: take each entry
off the front in turn (each `tunefs_close` deregisters its own entry) and
emit it in close order. -/
def closeAllGo : List Nat → List Nat
  | [] => []
  | h :: t => h :: closeAllGo t

/-- `tunefs_close_all`: the registered handles in the order the teardown
closes them — front of the list first. -/
def tunefs_close_all_order (s : TState) : List Nat :=
  closeAllGo s.registry

/-- The signals `setup_signals` routes to `handle_signal`, plus the
default class. -/
inductive Sig where
  | SIGTERM | SIGINT | SIGHUP | SIGQUIT | SIGSEGV | otherSig
  deriving DecidableEq

/-- Outcome of `handle_signal`: `aborted` is `abort()` with no teardown,
`exited order` is `tunefs_close_all` (closing the registered handles in
`order`) followed by `exit(1)`, `ignored` means the handler returned. -/
inductive SigOutcome where
  | ignored
  | aborted
  | exited (closeOrder : List Nat)
  deriving DecidableEq

/-- `handle_signal` (lines 205-246).  `segvAlready` is the static
`segv_already` flag.  SIGQUIT sets both `abortp` and `exitp` and the
`abort()` fires before any teardown; a second SIGSEGV does the same. -/
def handle_signal (sig : Sig) (segvAlready : Bool) (s : TState) : SigOutcome :=
  match sig with
  | Sig.SIGQUIT => SigOutcome.aborted
  | Sig.SIGTERM => SigOutcome.exited (tunefs_close_all_order s)
  | Sig.SIGINT => SigOutcome.exited (tunefs_close_all_order s)
  | Sig.SIGHUP => SigOutcome.exited (tunefs_close_all_order s)
  | Sig.SIGSEGV =>
    if segvAlready then SigOutcome.aborted
    else SigOutcome.exited (tunefs_close_all_order s)
  | Sig.otherSig => SigOutcome.ignored

theorem closeAllGo_eq (l : List Nat) : closeAllGo l = l := by
  induction l with
  | nil => rfl
  | cons h t ih => simp [closeAllGo, ih]

/-- Registering handles in order `l` leaves the registry holding `l`
reversed (most recent first), on top of whatever was there. -/
theorem foldl_add_fs_registry (l : List Nat) (s : TState) :
    (l.foldl (fun st id => tunefs_add_fs id st) s).registry =
      l.reverse ++ s.registry := by
  induction l generalizing s with
  | nil => simp
  | cons h t ih =>
    rw [List.foldl_cons, ih]
    simp [tunefs_add_fs, List.reverse_cons, List.append_assoc]

/-- C8: emergency teardown triggered by a terminating signal closes the
registered handles in strict reverse-of-open order: registration pushes
each new handle onto the front of the process-wide list, and
`tunefs_close_all` closes from the front, so handles opened in order `l`
are closed in order `l.reverse` — the second-opened before the first, the
first-opened (lock holder) last. -/
theorem C8_teardown_reverse_order (l : List Nat) (s : TState) (sig : Sig)
    (hreg : s.registry = [])
    (hsig : sig = Sig.SIGTERM ∨ sig = Sig.SIGINT ∨ sig = Sig.SIGHUP) :
    handle_signal sig false (l.foldl (fun st id => tunefs_add_fs id st) s) =
      SigOutcome.exited l.reverse := by
  have horder : tunefs_close_all_order (l.foldl (fun st id => tunefs_add_fs id st) s) =
      l.reverse := by
    rw [tunefs_close_all_order, closeAllGo_eq, foldl_add_fs_registry, hreg,
      List.append_nil]
  rcases hsig with rfl | rfl | rfl <;>
    rw [handle_signal, horder]

/-- Witness for C8: handles opened in order [A, B] = [1, 2] are closed in
order [2, 1] on SIGTERM — B before A, the lock holder last. -/
theorem C8_witness :
    handle_signal Sig.SIGTERM false
      ([1, 2].foldl (fun st id => tunefs_add_fs id st) tstate0) =
      SigOutcome.exited [2, 1] := by
  have h := C8_teardown_reverse_order [1, 2] tstate0 Sig.SIGTERM rfl (Or.inl rfl)
  exact h

/-! ### Feature operations: the inline-data enable body

Embedding of `enable_inline_data` (feature_inline_data.c lines 84-111) and
`single_feature_run` (libtunefs.c lines 1351-1381). -/

/-- The filesystem view of a feature body: whether
`OCFS2_FEATURE_INCOMPAT_INLINE_DATA` is set in the superblock
(`ocfs2_support_inline_data`), and the result of `ocfs2_write_super`. -/
structure FeatFS where
  inlineData : Bool := false
  writeSuperRes : Option Err := none
  deriving DecidableEq

/-- `enable_inline_data`: report and succeed when the feature is already
enabled; otherwise prompt (`ans` is the `tunefs_interact` outcome — true
when non-interactive), and on confirmation set the in-memory flag and
write the superblock.  Returns the error, the updated filesystem, the
device writes issued, and whether the "already enabled" report was made. -/
def enable_inline_data (fs : FeatFS) (ans : Bool) :
    Option Err × FeatFS × List DiskOp × Bool :=
  if fs.inlineData then (none, fs, [], true)
  else if !ans then (none, fs, [], false)
  else (fs.writeSuperRes, { fs with inlineData := true }, [DiskOp.writeSuper], false)

/-- The tri-state action selector of a feature operation. -/
inductive FeatAction where
  | FEATURE_NOOP
  | FEATURE_ENABLE
  | FEATURE_DISABLE
  deriving DecidableEq

/-- `single_feature_run`: dispatch the selected action to the feature's
enable or disable body; `FEATURE_NOOP` only reports. -/
def single_feature_run (action : FeatAction)
    (tf_enable tf_disable : FeatFS → Bool → Option Err × FeatFS × List DiskOp × Bool)
    (fs : FeatFS) (ans : Bool) : Option Err × FeatFS × List DiskOp × Bool :=
  match action with
  | FeatAction.FEATURE_ENABLE => tf_enable fs ans
  | FeatAction.FEATURE_DISABLE => tf_disable fs ans
  | FeatAction.FEATURE_NOOP => (none, fs, [], false)

/-- C9: a feature enable body invoked on a filesystem whose superblock
already has the feature enabled is idempotent: it reports the
already-enabled state and returns success with no device write and no
filesystem change; invoking enable twice in a row leaves the filesystem
identical to invoking it once (for any prompt answer), and when the first
invocation enabled the feature the second reports "already enabled" and
performs no write; `single_feature_run` dispatches the enable action to
the enable body. -/
theorem C9_enable_idempotent (fs : FeatFS) (ans : Bool) :
    (fs.inlineData = true → enable_inline_data fs ans = (none, fs, [], true))
    ∧ (enable_inline_data (enable_inline_data fs ans).2.1 ans).2.1 =
        (enable_inline_data fs ans).2.1
    ∧ (fs.inlineData = false → ans = true →
        enable_inline_data (enable_inline_data fs ans).2.1 ans =
          (none, (enable_inline_data fs ans).2.1, [], true))
    ∧ single_feature_run FeatAction.FEATURE_ENABLE enable_inline_data
        (fun f _ => (none, f, [], false)) fs ans = enable_inline_data fs ans := by
  refine ⟨?_, ?_, ?_, rfl⟩
  · intro h
    simp [enable_inline_data, h]
  · by_cases h : fs.inlineData <;> by_cases ha : ans <;>
      simp [enable_inline_data, h, ha]
  · intro h ha
    simp [enable_inline_data, h, ha]

/-- Witness for C9: enabling on an already-enabled superblock is a
reporting no-op, and enabling twice from disabled leaves the same
filesystem as enabling once. -/
theorem C9_witness :
    enable_inline_data { inlineData := true } true =
      (none, { inlineData := true }, [], true)
    ∧ (enable_inline_data (enable_inline_data { inlineData := false } true).2.1 true).2.1 =
        (enable_inline_data { inlineData := false } true).2.1 := by
  have h1 := C9_enable_idempotent { inlineData := true } true
  have h2 := C9_enable_idempotent { inlineData := false } true
  exact ⟨h1.1 rfl, h2.2.1⟩

/-! ### Operation Runner

Embedding of `tunefs_main` (libtunefs.c lines 1405-1482). -/

/-- Events of one `tunefs_main` invocation, in program order. -/
inductive MEv where
  | OpenMaster
  | OpenOp
  | RunBody
  | CloseOp
  | CloseMaster
  deriving DecidableEq

/-- Step outcomes of one `tunefs_main` run: whether the operation supplies
an option parser (after a successful parse `rc` is its result 0; without a
parser `rc` keeps the initializer 1), the errors of the two `tunefs_open`
calls, the run body's return code, and the errors of the two
`tunefs_close` calls. -/
structure OpWorld where
  hasParse : Bool := false
  openMaster : Option Err := none
  openOp : Option Err := none
  runRc : Int := 0
  closeOp : Option Err := none
  closeMaster : Option Err := none
  deriving DecidableEq

/-- `tunefs_main` from the point where the argument phase has succeeded:
resolve the operation flags from the master-open classification
(`PERFORM_ONLINE` adds the online flag, `INVALID_STACK_NAME` the
no-cluster flag, any other error aborts), open the operation handle (a
hard failure jumps to closing the master), run the body, close the
operation handle and then the master, forcing exit status 1 when either
close fails.  Returns the exit status, the events in order, and the
resolved flags. -/
def tunefs_main_model (w : OpWorld) (opFlags : Flags) : Int × List MEv × Flags :=
  let rc0 : Int := if w.hasParse then 0 else 1
  let flags0 := { opFlags with online := false, nocluster := false }
  if w.openMaster = some Err.PERFORM_ONLINE ∨
      w.openMaster = some Err.INVALID_STACK_NAME ∨ w.openMaster = none then
    let flags := if w.openMaster = some Err.PERFORM_ONLINE then
        { flags0 with online := true }
      else if w.openMaster = some Err.INVALID_STACK_NAME then
        { flags0 with nocluster := true }
      else flags0
    if w.openOp ≠ none ∧ w.openOp ≠ some Err.PERFORM_ONLINE ∧
        w.openOp ≠ some Err.INVALID_STACK_NAME then
      ((if w.closeMaster ≠ none then 1 else rc0),
        [MEv.OpenMaster, MEv.OpenOp, MEv.CloseMaster], flags)
    else
      let rc1 := w.runRc
      let rc2 := if w.closeOp ≠ none then (1 : Int) else rc1
      let rc3 := if w.closeMaster ≠ none then (1 : Int) else rc2
      (rc3, [MEv.OpenMaster, MEv.OpenOp, MEv.RunBody, MEv.CloseOp, MEv.CloseMaster], flags)
  else
    (rc0, [MEv.OpenMaster], flags0)

/-- A master-open failure that is not one of the two reclassification
outcomes. -/
def masterHardFail (w : OpWorld) : Prop :=
  w.openMaster ≠ none ∧ w.openMaster ≠ some Err.PERFORM_ONLINE ∧
  w.openMaster ≠ some Err.INVALID_STACK_NAME

instance (w : OpWorld) : Decidable (masterHardFail w) := by
  unfold masterHardFail
  infer_instance

/-- C7 (amended): whenever the run body executes, both handle closes also
execute regardless of the body's result, with the master handle closed
after the operation handle; a hard master-open failure aborts before the
body ever runs; the body's return code is the exit result when both closes
succeed; but a close failure forces exit status 1, *replacing* the body's
code rather than preserving the first error's identity (it still never
turns a failure into success: the exit is 1, not 0). -/
theorem C7_runner_close_order (w : OpWorld) (opFlags : Flags) :
    (MEv.RunBody ∈ (tunefs_main_model w opFlags).2.1 →
      (tunefs_main_model w opFlags).2.1 =
        [MEv.OpenMaster, MEv.OpenOp, MEv.RunBody, MEv.CloseOp, MEv.CloseMaster])
    ∧ (masterHardFail w →
      (tunefs_main_model w opFlags).2.1 = [MEv.OpenMaster] ∧
      MEv.RunBody ∉ (tunefs_main_model w opFlags).2.1)
    ∧ (MEv.RunBody ∈ (tunefs_main_model w opFlags).2.1 →
      w.closeOp = none → w.closeMaster = none →
      (tunefs_main_model w opFlags).1 = w.runRc)
    ∧ (MEv.RunBody ∈ (tunefs_main_model w opFlags).2.1 →
      (w.closeOp ≠ none ∨ w.closeMaster ≠ none) →
      (tunefs_main_model w opFlags).1 = 1) := by
  by_cases hM : w.openMaster = some Err.PERFORM_ONLINE ∨
      w.openMaster = some Err.INVALID_STACK_NAME ∨ w.openMaster = none
  · by_cases hO : w.openOp ≠ none ∧ w.openOp ≠ some Err.PERFORM_ONLINE ∧
        w.openOp ≠ some Err.INVALID_STACK_NAME
    · have heq : (tunefs_main_model w opFlags).2.1 =
          [MEv.OpenMaster, MEv.OpenOp, MEv.CloseMaster] := by
        simp only [tunefs_main_model]
        rw [if_pos hM, if_pos hO]
      refine ⟨?_, ?_, ?_, ?_⟩
      · intro hmem
        rw [heq] at hmem
        simp at hmem
      · intro hhard
        exact absurd hM (by
          rcases hhard with ⟨h1, h2, h3⟩
          rintro (h | h | h) <;> [exact h2 h; exact h3 h; exact h1 h])
      · intro hmem
        rw [heq] at hmem
        simp at hmem
      · intro hmem
        rw [heq] at hmem
        simp at hmem
    · have heq : tunefs_main_model w opFlags =
          ((if w.closeMaster ≠ none then 1 else
              if w.closeOp ≠ none then (1 : Int) else w.runRc),
            [MEv.OpenMaster, MEv.OpenOp, MEv.RunBody, MEv.CloseOp, MEv.CloseMaster],
            (if w.openMaster = some Err.PERFORM_ONLINE then
              { opFlags with online := true, nocluster := false }
            else if w.openMaster = some Err.INVALID_STACK_NAME then
              { opFlags with online := false, nocluster := true }
            else { opFlags with online := false, nocluster := false })) := by
        simp only [tunefs_main_model]
        rw [if_pos hM, if_neg hO]
      rw [heq]
      refine ⟨fun _ => rfl, ?_, ?_, ?_⟩
      · intro hhard
        exact absurd hM (by
          rcases hhard with ⟨h1, h2, h3⟩
          rintro (h | h | h) <;> [exact h2 h; exact h3 h; exact h1 h])
      · intro _ hc2 hc3
        simp [hc2, hc3]
      · intro _ hor
        rcases hor with hc | hc
        · by_cases h3 : w.closeMaster ≠ none <;> simp [hc, h3]
        · simp [hc]
  · have heq : tunefs_main_model w opFlags =
        ((if w.hasParse then 0 else 1), [MEv.OpenMaster],
          { opFlags with online := false, nocluster := false }) := by
      simp only [tunefs_main_model]
      rw [if_neg hM]
    rw [heq]
    refine ⟨?_, fun _ => ⟨rfl, by simp⟩, ?_, ?_⟩
    · intro hmem
      simp at hmem
    · intro hmem
      simp at hmem
    · intro hmem
      simp at hmem

/-- A run whose body fails with code 2 and whose operation-handle close
also fails. -/
def opWorldCE : OpWorld := { runRc := 2, closeOp := some Err.IO_ERROR }

/-- Counterexample to C7's error-preservation as stated: the body runs and
fails first (code 2), the close of the operation handle fails afterwards,
and the exit result is 1 — the later close failure *replaces* the first
error's code instead of preserving it. -/
theorem C7_counterexample :
    MEv.RunBody ∈ (tunefs_main_model opWorldCE {}).2.1
    ∧ opWorldCE.runRc = 2
    ∧ (tunefs_main_model opWorldCE {}).1 = 1
    ∧ (tunefs_main_model opWorldCE {}).1 ≠ opWorldCE.runRc := by
  refine ⟨by decide, rfl, by decide, by decide⟩

/-- Witness for C7 (amended): with successful opens and closes the body
runs between the opens and the ordered closes, and its code 3 is the exit
status. -/
theorem C7_witness :
    (tunefs_main_model { runRc := 3 } {}).2.1 =
      [MEv.OpenMaster, MEv.OpenOp, MEv.RunBody, MEv.CloseOp, MEv.CloseMaster]
    ∧ (tunefs_main_model { runRc := 3 } {}).1 = 3 := by
  have h := C7_runner_close_order { runRc := 3 } {}
  exact ⟨h.1 (by decide), h.2.2.1 (by decide) rfl rfl⟩
